import Mathlib

/-!
Shallow embedding of the task-delegation daemon (`bin/autodelegate-daemon.mjs`):
the agent registry (`loadAgents`), the router (`pickAgent`), the execution
engine's invocation builder (`runAgent`), crash recovery (`recoverProcessing`)
and the per-iteration task processor (`processOneTask`).

Modelling conventions:
- JSON strings are `String`; optional JSON fields are `Option`; JS falsiness of
  a string field (`if (task.agent)`) is "present and non-empty".
- JS numbers on the task/config records are modelled as `Int` (the daemon only
  ever adds and compares them).
- File-system effects are returned as data: renames become `FileMove` values,
  subprocess invocations become `SpawnCall` values, `appendEvent` payloads
  become `Event` values.  Clock reads (`Date.now()`, `nowIso`, `tsCompact`) are
  supplied by the environment record.
- A JS exception is a `String`; fallible operations return `Fallible α`, and a
  `.exn` escaping `processOneTask` models an uncaught exception propagating to
  the caller.
-/

namespace Autodelegate

/-- Outcome of a JS operation that can throw: `.ok` is a normal return, `.exn e`
is a thrown exception carrying its text. -/
inductive Fallible (α : Type) where
  | ok (a : α)
  | exn (e : String)
  deriving DecidableEq, Repr

/-- Map over the normal result of a fallible step. -/
def Fallible.map {α β : Type} (f : α → β) : Fallible α → Fallible β
  | .ok a => .ok (f a)
  | .exn e => .exn e

/-- JS `a || b` for two strings: `a` unless it is empty. -/
def jsOrS (a b : String) : String := if a = "" then b else a

/-- JS `a || b` where `a` is an optional string field: `b` when `a` is absent or
empty. -/
def jsOrStr (a : Option String) (b : String) : String :=
  match a with
  | some s => jsOrS s b
  | none => b

/-- JS `s.slice(0, n)`. -/
def jsSlice (s : String) (n : Nat) : String := String.mk (s.toList.take n)

/-- The last `n` characters of `s` (what `s.slice(-n)` would return for a
string longer than `n`); used to state the spec's "last 5,000 characters". -/
def lastChars (s : String) (n : Nat) : String :=
  String.mk (s.toList.drop (s.toList.length - n))

/-- JS template interpolation of `result.status`: a number, or `null` when the
process was terminated by a signal. -/
def statusStr : Option Int → String
  | some c => toString c
  | none => "null"

/-- The whitespace characters `String.prototype.trim` strips, over the ASCII
range of the model: space, tab, line feed, carriage return, vertical tab and
form feed. -/
def jsWhitespace (c : Char) : Bool :=
  c == ' ' || c == '\t' || c == '\n' || c == '\r' ||
  c == Char.ofNat 11 || c == Char.ofNat 12

/-- JS `s.trim()`. -/
def jsTrim (s : String) : String :=
  String.mk (((s.toList.dropWhile jsWhitespace).reverse.dropWhile jsWhitespace).reverse)

/-- JS `s.endsWith(ext)`. -/
def strEndsWith (s ext : String) : Bool := ext.toList.isSuffixOf s.toList

/-- Model of `path.basename(fileName, ext)` for the flat names used in the queue
directories: strip `ext` when it is a suffix. -/
def dropExt (s ext : String) : String :=
  if strEndsWith s ext then String.mk (s.toList.take (s.toList.length - ext.toList.length))
  else s

/-- Insert a name into a sorted name list. -/
def insertName (n : String) : List String → List String
  | [] => [n]
  | m :: ms => if decide (n ≤ m) then n :: m :: ms else m :: insertName n ms

/-- Insertion sort of filenames: the `(a, b) => a.localeCompare(b)` comparator
modelled as the standard string order. -/
def sortNames : List String → List String
  | [] => []
  | n :: ns => insertName n (sortNames ns)

/-- Embedding of `listFiles(dir, suffix)`: directory entries with the given suffix, sorted. -/
def listFiles (names : List String) (ext : String) : List String :=
  sortNames (names.filter (fun n => strEndsWith n ext))

/-- Target filename used by `moveFileToDir`: the prefix, a dash, the base name. -/
def moveName (pre baseName : String) : String := pre ++ "-" ++ baseName

/-- Is `c` kept by `slugify`'s character class `[a-z0-9]`? -/
def slugChar (c : Char) : Bool := (('a' ≤ c) && (c ≤ 'z')) || (('0' ≤ c) && (c ≤ '9'))

/-- Collapse each run of consecutive dashes to a single dash. -/
def squeezeDashes : List Char → List Char
  | [] => []
  | [c] => [c]
  | c :: d :: rest =>
    if c = '-' && d = '-' then squeezeDashes (d :: rest)
    else c :: squeezeDashes (d :: rest)

/-- Drop leading and trailing dashes (`.replace(/^-+|-+$/g, '')`). -/
def trimDashes (l : List Char) : List Char :=
  ((l.dropWhile (fun c => c = '-')).reverse.dropWhile (fun c => c = '-')).reverse

/-- Embedding of `slugify` from the daemon: lowercase, replace runs of non-alphanumerics
with `-`, trim dashes, truncate to 60, falling back to `"task"`. -/
def slugify (value : String) : String :=
  let base := if value = "" then "task" else value
  let mapped := (base.toList.map Char.toLower).map (fun c => if slugChar c then c else '-')
  let out := (trimDashes (squeezeDashes mapped)).take 60
  if out.isEmpty then "task" else String.mk out

/-- A JSON value found in a task's `prompt` field: a string, or any non-string
JSON value (which `typeof task.prompt === 'string'` rejects). -/
inductive PromptVal where
  | str (s : String)
  | nonString
  deriving DecidableEq, Repr

/-- A task record as read from a queue file. -/
structure Task where
  id : Option String := none
  title : Option String := none
  prompt : Option PromptVal := none
  agent : Option String := none
  tool : Option String := none
  cwd : Option String := none
  commandArgs : Option (List String) := none
  maxAttempts : Option Int := none
  attempt : Option Int := none
  env : List (String × String) := []
  lastError : Option String := none
  lastTriedAt : Option String := none
  deriving DecidableEq, Repr

/-- JS `typeof task.prompt === 'string' ? task.prompt : ''`. -/
def promptStr (t : Task) : String :=
  match t.prompt with
  | some (.str s) => s
  | _ => ""

/-- How the prompt is delivered to the agent subprocess. -/
inductive PromptMode where
  | argument
  | stdin
  deriving DecidableEq, Repr

/-- A normalized agent registry entry (the value stored by `loadAgents`). -/
structure Agent where
  name : String
  command : String
  promptMode : PromptMode := .argument
  defaultArgs : List String := []
  useWorktree : Bool := true
  env : List (String × String) := []
  deriving DecidableEq, Repr

/-- A raw agent definition as parsed from an `.agent.json` file. An absent
`name`/`command` is modelled as `""` (both are falsy to the JS checks). -/
structure RawAgent where
  name : String := ""
  command : String := ""
  enabled : Option Bool := none
  promptMode : Option String := none
  defaultArgs : Option (List String) := none
  useWorktree : Option Bool := none
  env : List (String × String) := []
  deriving DecidableEq, Repr

/-- The normalized entry `loadAgents` stores for a raw definition
(`{...agent, promptMode, defaultArgs, useWorktree}`). -/
def normAgent (a : RawAgent) : Agent where
  name := a.name
  command := a.command
  promptMode := if a.promptMode == some "stdin" then .stdin else .argument
  defaultArgs := a.defaultArgs.getD []
  useWorktree := !(a.useWorktree == some false)
  env := a.env

/-- The filter `loadAgents` applies to one agent file: parse failures are
skipped, `enabled === false` is skipped, missing `name`/`command` is skipped,
an unresolvable `command` is skipped. -/
def eligibleRaw (cmdExists : String → Bool) : Except String RawAgent → Option RawAgent
  | .error _ => none
  | .ok a =>
    if a.enabled == some false then none
    else if a.name == "" || a.command == "" then none
    else if !cmdExists a.command then none
    else some a

/-- JS `Map.prototype.set` on an insertion-ordered association list: update the
existing entry in place, else append at the end. -/
def mapSet : List (String × Agent) → String → Agent → List (String × Agent)
  | [], k, v => [(k, v)]
  | (k', v') :: rest, k, v =>
    if k' = k then (k, v) :: rest else (k', v') :: mapSet rest k v

/-- One loop-body step of `loadAgents`: filter the file, then `byName.set`. -/
def agentStep (cmdExists : String → Bool) (m : List (String × Agent))
    (f : Except String RawAgent) : List (String × Agent) :=
  match eligibleRaw cmdExists f with
  | some a => mapSet m a.name (normAgent a)
  | none => m

/-- Embedding of `loadAgents(agentsDirs)`: each directory is the ordered list of parse
outcomes of its `.agent.json` files; `cmdExists` models `commandExists`.
The nested directory/file loops are the fold over the concatenated file
stream; the result is `Array.from(byName.values())`. -/
def loadAgents (dirs : List (List (Except String RawAgent))) (cmdExists : String → Bool) :
    List Agent :=
  ((dirs.flatten).foldl (agentStep cmdExists) []).map Prod.snd

/-- Orchestrator configuration after `loadConfig` (a field is `none` when the
config file explicitly set it to `null`). -/
structure Config where
  pollIntervalMs : Option Int := some 5000
  defaultMaxAttempts : Option Int := some 2
  routingOrder : Option (List String) := some []
  cleanupWorktreeOnSuccess : Bool := false
  cleanupWorktreeOnFailure : Bool := false
  deriving DecidableEq, Repr

/-- JS early return: take the first stage's result when it found an agent,
otherwise fall through to the next stage. -/
def firstSome (x y : Option Agent) : Option Agent :=
  match x with
  | some v => some v
  | none => y

/-- First agent named by the routing order (`for (const name of routingOrder)`
with `agents.find`). -/
def firstFound : List String → List Agent → Option Agent
  | [], _ => none
  | n :: ns, agents =>
    match agents.find? (fun a => a.name == n) with
    | some a => some a
    | none => firstFound ns agents

/-- Rule 1 of `pickAgent`: `if (task.agent) { agents.find(a => a.name ===
task.agent) }` — the JS truthiness guard is expanded to "present and
non-empty". -/
def byAgentStage (task : Task) (agents : List Agent) : Option Agent :=
  match task.agent with
  | some s => if s == "" then none else agents.find? (fun a => a.name == s)
  | none => none

/-- Rule 2 of `pickAgent`: `if (task.tool) { agents.find(a => a.command ===
task.tool) }`. -/
def byToolStage (task : Task) (agents : List Agent) : Option Agent :=
  match task.tool with
  | some s => if s == "" then none else agents.find? (fun a => a.command == s)
  | none => none

/-- Rule 3 of `pickAgent`: `Array.isArray(config.routingOrder)` is the `some`
check, then the first routing-order name that names an agent. -/
def routingStage (config : Config) (agents : List Agent) : Option Agent :=
  match config.routingOrder with
  | some order => firstFound order agents
  | none => none

/-- Embedding of `pickAgent(task, agents, config)`: the early-return
chain over the three rules, falling back to `agents[0]`. -/
def pickAgent (task : Task) (agents : List Agent) (config : Config) : Option Agent :=
  if agents.isEmpty then none
  else
    firstSome (byAgentStage task agents)
      (firstSome (byToolStage task agents)
        (firstSome (routingStage config agents)
          agents.head?))

/-- The router exactly as the claim words it (rule 1: agent whose name equals
`task.agent`; rule 2: agent whose command equals `task.tool`; rule 3: first
routing-order name present; rule 4: first agent). Stated from the claim, to be
compared with `pickAgent`. -/
def pickAgentClaim (task : Task) (agents : List Agent) (config : Config) : Option Agent :=
  if agents.isEmpty then none
  else
    firstSome (agents.find? (fun a => task.agent == some a.name))
      (firstSome (agents.find? (fun a => task.tool == some a.command))
        (firstSome (firstFound (config.routingOrder.getD []) agents)
          agents.head?))

/-- The subprocess invocation `runAgent` performs: executable, argument vector
and optional stdin payload. -/
structure SpawnCall where
  command : String
  args : List String
  input : Option String
  deriving DecidableEq, Repr

/-- Embedding of `runAgent(agent, task, prompt, cwd)`: the spawned command line. -/
def runAgent (agent : Agent) (task : Task) (prompt : String) : SpawnCall :=
  let args := agent.defaultArgs ++ task.commandArgs.getD []
  if agent.promptMode == PromptMode.stdin then
    { command := agent.command, args := args, input := some prompt }
  else
    { command := agent.command, args := args ++ [prompt], input := none }

/-- The outcome record of `spawnSync`: `status` is `none` when the process was
terminated by a signal (or failed to spawn). -/
structure SpawnResult where
  status : Option Int := none
  signal : Option String := none
  stdout : String := ""
  stderr : String := ""
  deriving DecidableEq, Repr

/-- A queue directory. -/
inductive QDir where
  | inbox
  | processing
  | completed
  | failed
  deriving DecidableEq, Repr

/-- Bytes of a queue file: either a raw (unparseable) string or the JSON
serialization of a task record. -/
inductive FileBody where
  | raw (s : String)
  | task (t : Task)
  deriving DecidableEq, Repr

/-- One rename performed by the processor: the file now at `dir/name` with
content `content`. -/
structure FileMove where
  dir : QDir
  name : String
  content : FileBody
  deriving DecidableEq, Repr

/-- An `appendEvent` payload (the fields the state machine decides on; the
clock field `at` and path fields are environment-determined). -/
structure Event where
  status : String
  reason : Option String := none
  taskId : Option String := none
  attempt : Option Int := none
  maxAttempts : Option Int := none
  error : Option String := none
  runDir : Option String := none
  deriving DecidableEq, Repr

/-- The observable effects of one `processOneTask` call: its boolean return,
the renames performed (claim rename included), the subprocesses spawned and
the events appended, in order. -/
structure ProcResult where
  returned : Bool
  moves : List FileMove
  spawns : List SpawnCall
  events : List Event
  deriving DecidableEq, Repr

/-- The parse outcome of the claimed task file. -/
inductive JsonContent where
  | malformed (raw : String)
  | wellFormed (t : Task)
  deriving DecidableEq, Repr

/-- A created worktree: branch name and checkout path. -/
structure Worktree where
  branch : String
  worktreePath : String
  deriving DecidableEq, Repr

/-- The original bytes of the claimed file. -/
def contentBody : JsonContent → FileBody
  | .malformed s => .raw s
  | .wellFormed t => .task t

/-- Environment of one `processOneTask` call: queue listing, loaded registry
and configuration, and the oracle outcomes of the effectful steps (claim
rename, snapshot writes, worktree creation, the agent subprocess, output
writes) plus the clock reads of this iteration. -/
structure ProcEnv where
  inboxNames : List String
  agents : List Agent
  config : Config
  claimOk : Bool
  content : JsonContent
  snapshotWrite : Fallible Unit
  worktreeRes : Fallible Worktree
  runResult : SpawnResult
  outputWrite : Fallible Unit
  nowMs : Int
  nowText : String
  nowCompact : String
  deriving DecidableEq, Repr

/-- JS `fs.renameSync` between directories modelled as name-content association
lists: move the entry named `name` from `src` to `dst` under `newName`,
carrying its content unchanged; no-op when `name` is absent. -/
def renameEntry (src dst : List (String × String)) (name newName : String) :
    List (String × String) × List (String × String) :=
  match src.find? (fun p => p.1 == name) with
  | some e => (src.eraseP (fun p => p.1 == name), dst ++ [(newName, e.2)])
  | none => (src, dst)

/-- Embedding of `recoverProcessing(processingDir, inboxDir)`: rename every `.json` file of
the processing directory into the inbox directory under a `recovered-` name.
Returns the two directories after the loop. -/
def recoverProcessing (processing inbox : List (String × String)) :
    List (String × String) × List (String × String) :=
  (listFiles (processing.map Prod.fst) ".json").foldl
    (fun st n => renameEntry st.1 st.2 n ("recovered-" ++ n)) (processing, inbox)

/-- Whether the contended task file is still present in the inbox. -/
structure StoreState where
  inboxHas : Bool
  deriving DecidableEq, Repr

/-- Modelled from the spec: the queue store's claim primitive, the atomic
filesystem rename from `inbox` to `processing` (an operating-system guarantee,
not code of this repository). It succeeds exactly when the file is still in
the inbox and removes it; atomicity means each attempt is one indivisible
step, so two concurrent attempts interleave as one attempt after the other. -/
def claimAttempt (s : StoreState) : Bool × StoreState :=
  if s.inboxHas then (true, ⟨false⟩) else (false, s)

/-- Embedding of `processOneTask(context)`, lines 335-503 of the daemon: claim the first
pending task, parse and validate it, route it, snapshot it, run the agent
inside the guarded block, and move the file to its next queue directory.
`.exn` models an exception escaping the function. -/
def processOneTask (env : ProcEnv) : Fallible ProcResult :=
  match listFiles env.inboxNames ".json" with
  | [] => .ok ⟨false, [], [], []⟩
  | fileName :: _ =>
    if env.agents.isEmpty then .ok ⟨true, [], [], []⟩
    else if !env.claimOk then .ok ⟨true, [], [], []⟩
    else
      let claimed : FileMove := ⟨.processing, fileName, contentBody env.content⟩
      match env.content with
      | .malformed raw =>
        .ok ⟨true, [claimed, ⟨.failed, moveName (toString env.nowMs) fileName, .raw raw⟩], [],
          [{ status := "failed", reason := some "invalid_json" }]⟩
      | .wellFormed t =>
        let taskId := jsOrStr t.id (dropExt fileName ".json")
        let prompt := promptStr t
        if jsTrim prompt = "" then
          .ok ⟨true, [claimed, ⟨.failed, moveName (toString env.nowMs) fileName, .task t⟩], [],
            [{ status := "failed", reason := some "missing_prompt", taskId := some taskId }]⟩
        else
          match pickAgent t env.agents env.config with
          | none =>
            .ok ⟨true, [claimed,
              ⟨.inbox, moveName ("waiting-" ++ toString env.nowMs) fileName, .task t⟩], [], []⟩
          | some agent =>
            let runDir := env.nowCompact ++ "-" ++ slugify taskId
            match env.snapshotWrite with
            | .exn e => .exn e
            | .ok _ =>
              match (if agent.useWorktree then env.worktreeRes.map some
                     else Fallible.ok none) with
              | .exn e =>
                .ok ⟨true,
                  [claimed, ⟨.failed, moveName (toString env.nowMs) fileName, .task t⟩], [],
                  [{ status := "failed", reason := some "runtime_exception",
                     taskId := some taskId, error := some e, runDir := some runDir }]⟩
              | .ok _wt =>
                let call := runAgent agent t prompt
                let result := env.runResult
                match env.outputWrite with
                | .exn e =>
                  .ok ⟨true,
                    [claimed, ⟨.failed, moveName (toString env.nowMs) fileName, .task t⟩], [call],
                    [{ status := "failed", reason := some "runtime_exception",
                       taskId := some taskId, error := some e, runDir := some runDir }]⟩
                | .ok _ =>
                  let maxAtt := t.maxAttempts.getD (env.config.defaultMaxAttempts.getD 1)
                  let att := t.attempt.getD 0
                  if result.status == some 0 then
                    .ok ⟨true,
                      [claimed, ⟨.completed, moveName (toString env.nowMs) fileName, .task t⟩],
                      [call],
                      [{ status := "completed", taskId := some taskId, runDir := some runDir }]⟩
                  else if att + 1 < maxAtt then
                    let t' := { t with
                      attempt := some (att + 1),
                      lastError :=
                        some (jsSlice (jsOrS result.stderr ("exit_" ++ statusStr result.status)) 5000),
                      lastTriedAt := some env.nowText }
                    .ok ⟨true,
                      [claimed,
                       ⟨.inbox, moveName ("retry-" ++ toString env.nowMs) fileName, .task t'⟩],
                      [call],
                      [{ status := "retrying", taskId := some taskId, attempt := some (att + 1),
                         maxAttempts := some maxAtt, runDir := some runDir }]⟩
                  else
                    .ok ⟨true,
                      [claimed, ⟨.failed, moveName (toString env.nowMs) fileName, .task t⟩],
                      [call],
                      [{ status := "failed", reason := some ("exit_" ++ statusStr result.status),
                         taskId := some taskId, runDir := some runDir }]⟩

/-! ## Theorems -/

/-- C8: `runAgent` builds the subprocess argument vector as the agent's
`defaultArgs` followed by the task's `commandArgs`; when `promptMode` is
`stdin` the prompt is supplied on standard input and no prompt argument is
appended, and otherwise the prompt is appended as the single final positional
argument. -/
theorem runAgent_argv_and_prompt_delivery (agent : Agent) (task : Task) (prompt : String) :
    (runAgent agent task prompt).command = agent.command ∧
    (runAgent agent task prompt).args =
      (if agent.promptMode = PromptMode.stdin
       then agent.defaultArgs ++ task.commandArgs.getD []
       else agent.defaultArgs ++ task.commandArgs.getD [] ++ [prompt]) ∧
    (runAgent agent task prompt).input =
      (if agent.promptMode = PromptMode.stdin then some prompt else none) := by
  cases hp : agent.promptMode <;> simp [runAgent, hp]

/-- C5: a claimed task file whose content is not parseable as JSON is moved
immediately into the failed directory with reason `invalid_json`, no agent is
executed (no subprocess is spawned), and the file content is carried over
unchanged — in particular no attempt counter is touched. -/
theorem invalidJson_fails_immediately
    (env : ProcEnv) (fileName : String) (rest : List String) (raw : String)
    (hfiles : listFiles env.inboxNames ".json" = fileName :: rest)
    (hagents : env.agents.isEmpty = false)
    (hclaim : env.claimOk = true)
    (hcontent : env.content = JsonContent.malformed raw) :
    processOneTask env = .ok {
      returned := true,
      moves := [⟨QDir.processing, fileName, FileBody.raw raw⟩,
                ⟨QDir.failed, moveName (toString env.nowMs) fileName, FileBody.raw raw⟩],
      spawns := [],
      events := [{ status := "failed", reason := some "invalid_json" }] } := by
  unfold processOneTask
  rw [hfiles, hcontent]
  simp [hagents, hclaim, contentBody]

/-- C5 witness: a concrete unparseable file is failed as `invalid_json` with
its bytes unchanged. -/
theorem invalidJson_fails_immediately_witness :
    processOneTask {
      inboxNames := ["task-1.json"],
      agents := [{ name := "a", command := "c" }],
      config := {},
      claimOk := true,
      content := .malformed "not json \x7b",
      snapshotWrite := .ok (),
      worktreeRes := .ok ⟨"b", "p"⟩,
      runResult := {},
      outputWrite := .ok (),
      nowMs := 42, nowText := "T", nowCompact := "TS" } = .ok {
      returned := true,
      moves := [⟨QDir.processing, "task-1.json", FileBody.raw "not json \x7b"⟩,
                ⟨QDir.failed, "42-task-1.json", FileBody.raw "not json \x7b"⟩],
      spawns := [],
      events := [{ status := "failed", reason := some "invalid_json" }] } :=
  invalidJson_fails_immediately _ "task-1.json" [] "not json \x7b"
    (by decide) (by decide) (by decide) (by decide)

/-- C10: a claimed task whose `prompt` field is absent, not a string, or a
string that is empty after trimming whitespace is moved to the failed
directory with reason `missing_prompt`, with no subprocess spawned and the
task content (its attempt counter included) unchanged. -/
theorem missingPrompt_fails_immediately
    (env : ProcEnv) (fileName : String) (rest : List String) (t : Task)
    (hfiles : listFiles env.inboxNames ".json" = fileName :: rest)
    (hagents : env.agents.isEmpty = false)
    (hclaim : env.claimOk = true)
    (hcontent : env.content = JsonContent.wellFormed t)
    (hbad : t.prompt = none ∨ t.prompt = some PromptVal.nonString ∨
            (∃ s, t.prompt = some (PromptVal.str s) ∧ jsTrim s = "")) :
    processOneTask env = .ok {
      returned := true,
      moves := [⟨QDir.processing, fileName, FileBody.task t⟩,
                ⟨QDir.failed, moveName (toString env.nowMs) fileName, FileBody.task t⟩],
      spawns := [],
      events := [{ status := "failed", reason := some "missing_prompt",
                   taskId := some (jsOrStr t.id (dropExt fileName ".json")) }] } := by
  have hps : jsTrim (promptStr t) = "" := by
    rcases hbad with h | h | ⟨s, hs, htrim⟩
    · have hp0 : promptStr t = "" := by simp [promptStr, h]
      rw [hp0]; decide
    · have hp0 : promptStr t = "" := by simp [promptStr, h]
      rw [hp0]; decide
    · have hp0 : promptStr t = s := by simp [promptStr, hs]
      rw [hp0]; exact htrim
  unfold processOneTask
  rw [hfiles, hcontent]
  simp [hagents, hclaim, contentBody, hps]

/-- C10 witness: a whitespace-only prompt (neither empty nor missing) is
rejected as `missing_prompt` exactly like a missing one. -/
theorem missingPrompt_fails_immediately_witness :
    processOneTask {
      inboxNames := ["t.json"],
      agents := [{ name := "a", command := "c" }],
      config := {},
      claimOk := true,
      content := .wellFormed { id := some "tid", prompt := some (.str "  \t "),
                               attempt := some 0 },
      snapshotWrite := .ok (),
      worktreeRes := .ok ⟨"b", "p"⟩,
      runResult := {},
      outputWrite := .ok (),
      nowMs := 9, nowText := "T", nowCompact := "TS" } = .ok {
      returned := true,
      moves := [⟨QDir.processing, "t.json",
                 FileBody.task { id := some "tid", prompt := some (.str "  \t "),
                                 attempt := some 0 }⟩,
                ⟨QDir.failed, "9-t.json",
                 FileBody.task { id := some "tid", prompt := some (.str "  \t "),
                                 attempt := some 0 }⟩],
      spawns := [],
      events := [{ status := "failed", reason := some "missing_prompt",
                   taskId := some "tid" }] } :=
  missingPrompt_fails_immediately _ "t.json" []
    { id := some "tid", prompt := some (.str "  \t "), attempt := some 0 }
    (by decide) (by decide) (by decide) (by decide)
    (Or.inr (Or.inr ⟨"  \t ", rfl, by decide⟩))

/-- C4: when the agent run ends with a non-zero exit code or a signal
(`status !== 0`) and attempt + 1 >= maxAttempts, the task is moved into the
failed directory with reason `exit_<status>`; the full effect list shows no
retry requeue happens, so a task with maxAttempts = 1 failing its first run
goes directly to failed. -/
theorem exhaustedAttempts_fail
    (env : ProcEnv) (fileName : String) (rest : List String) (t : Task)
    (agent : Agent) (wtOpt : Option Worktree)
    (hfiles : listFiles env.inboxNames ".json" = fileName :: rest)
    (hagents : env.agents.isEmpty = false)
    (hclaim : env.claimOk = true)
    (hcontent : env.content = JsonContent.wellFormed t)
    (hprompt : jsTrim (promptStr t) ≠ "")
    (hpick : pickAgent t env.agents env.config = some agent)
    (hsnap : env.snapshotWrite = Fallible.ok ())
    (hwt : (if agent.useWorktree then env.worktreeRes.map some else Fallible.ok none) =
           Fallible.ok wtOpt)
    (hout : env.outputWrite = Fallible.ok ())
    (hstatus : (env.runResult.status == some 0) = false)
    (hexceed : ¬(t.attempt.getD 0 + 1 <
                 t.maxAttempts.getD (env.config.defaultMaxAttempts.getD 1))) :
    processOneTask env = .ok {
      returned := true,
      moves := [⟨QDir.processing, fileName, FileBody.task t⟩,
                ⟨QDir.failed, moveName (toString env.nowMs) fileName, FileBody.task t⟩],
      spawns := [runAgent agent t (promptStr t)],
      events := [{ status := "failed",
                   reason := some ("exit_" ++ statusStr env.runResult.status),
                   taskId := some (jsOrStr t.id (dropExt fileName ".json")),
                   runDir := some (env.nowCompact ++ "-" ++
                     slugify (jsOrStr t.id (dropExt fileName ".json"))) }] } := by
  unfold processOneTask
  rw [hfiles, hcontent]
  simp [hagents, hclaim, contentBody, hprompt, hpick, hsnap, hwt, hout, hstatus, hexceed]

/-- C4 witness: maxAttempts = 1, first execution exits 1 — the task goes
directly to failed with reason `exit_1`; the effect list contains no retry. -/
theorem exhaustedAttempts_fail_witness :
    processOneTask {
      inboxNames := ["t.json"],
      agents := [{ name := "a", command := "c", useWorktree := false }],
      config := {},
      claimOk := true,
      content := .wellFormed { id := some "tid", prompt := some (.str "do it"),
                               maxAttempts := some 1 },
      snapshotWrite := .ok (),
      worktreeRes := .ok ⟨"b", "p"⟩,
      runResult := { status := some 1, stderr := "boom" },
      outputWrite := .ok (),
      nowMs := 5, nowText := "T", nowCompact := "TS" } = .ok {
      returned := true,
      moves := [⟨QDir.processing, "t.json",
                 FileBody.task { id := some "tid", prompt := some (.str "do it"),
                                 maxAttempts := some 1 }⟩,
                ⟨QDir.failed, "5-t.json",
                 FileBody.task { id := some "tid", prompt := some (.str "do it"),
                                 maxAttempts := some 1 }⟩],
      spawns := [{ command := "c", args := ["do it"], input := none }],
      events := [{ status := "failed", reason := some "exit_1",
                   taskId := some "tid", runDir := some "TS-tid" }] } :=
  exhaustedAttempts_fail _ "t.json" []
    { id := some "tid", prompt := some (.str "do it"), maxAttempts := some 1 }
    { name := "a", command := "c", useWorktree := false } none
    (by decide) (by decide) (by decide) (by decide) (by decide) (by decide)
    (by decide) (by decide) (by decide) (by decide) (by decide)

/-- Retry path of `processOneTask`: a failing run with attempts left requeues
the task under a `retry-` name with `attempt` incremented, `lastTriedAt` set
and `lastError := stderr.slice(0, 5000)`. -/
theorem processOneTask_retry_spec
    (env : ProcEnv) (fileName : String) (rest : List String) (t : Task)
    (agent : Agent) (wtOpt : Option Worktree)
    (hfiles : listFiles env.inboxNames ".json" = fileName :: rest)
    (hagents : env.agents.isEmpty = false)
    (hclaim : env.claimOk = true)
    (hcontent : env.content = JsonContent.wellFormed t)
    (hprompt : jsTrim (promptStr t) ≠ "")
    (hpick : pickAgent t env.agents env.config = some agent)
    (hsnap : env.snapshotWrite = Fallible.ok ())
    (hwt : (if agent.useWorktree then env.worktreeRes.map some else Fallible.ok none) =
           Fallible.ok wtOpt)
    (hout : env.outputWrite = Fallible.ok ())
    (hstatus : (env.runResult.status == some 0) = false)
    (hlt : t.attempt.getD 0 + 1 < t.maxAttempts.getD (env.config.defaultMaxAttempts.getD 1))
    (hstderr : env.runResult.stderr ≠ "") :
    processOneTask env = .ok {
      returned := true,
      moves := [⟨QDir.processing, fileName, FileBody.task t⟩,
                ⟨QDir.inbox, moveName ("retry-" ++ toString env.nowMs) fileName,
                 FileBody.task { t with
                   attempt := some (t.attempt.getD 0 + 1),
                   lastError := some (jsSlice env.runResult.stderr 5000),
                   lastTriedAt := some env.nowText }⟩],
      spawns := [runAgent agent t (promptStr t)],
      events := [{ status := "retrying",
                   taskId := some (jsOrStr t.id (dropExt fileName ".json")),
                   attempt := some (t.attempt.getD 0 + 1),
                   maxAttempts := some (t.maxAttempts.getD (env.config.defaultMaxAttempts.getD 1)),
                   runDir := some (env.nowCompact ++ "-" ++
                     slugify (jsOrStr t.id (dropExt fileName ".json"))) }] } := by
  unfold processOneTask
  rw [hfiles, hcontent]
  simp [hagents, hclaim, contentBody, hprompt, hpick, hsnap, hwt, hout, hstatus, hlt,
        jsOrS, hstderr]

/-- C1 (amended): when the agent run ends with a non-zero exit code or a
signal, attempt + 1 < maxAttempts and standard error is non-empty, the task is
requeued into the inbox under a `retry-` name with `attempt` incremented by
exactly 1, `lastTriedAt` set, and `lastError` set to the FIRST 5,000
characters of the captured standard error (`stderr.slice(0, 5000)`), not the
last 5,000 the claim states. -/
theorem failedRun_requeues_with_retry
    (env : ProcEnv) (fileName : String) (rest : List String) (t : Task)
    (agent : Agent) (wtOpt : Option Worktree)
    (hfiles : listFiles env.inboxNames ".json" = fileName :: rest)
    (hagents : env.agents.isEmpty = false)
    (hclaim : env.claimOk = true)
    (hcontent : env.content = JsonContent.wellFormed t)
    (hprompt : jsTrim (promptStr t) ≠ "")
    (hpick : pickAgent t env.agents env.config = some agent)
    (hsnap : env.snapshotWrite = Fallible.ok ())
    (hwt : (if agent.useWorktree then env.worktreeRes.map some else Fallible.ok none) =
           Fallible.ok wtOpt)
    (hout : env.outputWrite = Fallible.ok ())
    (hstatus : (env.runResult.status == some 0) = false)
    (hlt : t.attempt.getD 0 + 1 < t.maxAttempts.getD (env.config.defaultMaxAttempts.getD 1))
    (hstderr : env.runResult.stderr ≠ "") :
    processOneTask env = .ok {
      returned := true,
      moves := [⟨QDir.processing, fileName, FileBody.task t⟩,
                ⟨QDir.inbox, moveName ("retry-" ++ toString env.nowMs) fileName,
                 FileBody.task { t with
                   attempt := some (t.attempt.getD 0 + 1),
                   lastError := some (jsSlice env.runResult.stderr 5000),
                   lastTriedAt := some env.nowText }⟩],
      spawns := [runAgent agent t (promptStr t)],
      events := [{ status := "retrying",
                   taskId := some (jsOrStr t.id (dropExt fileName ".json")),
                   attempt := some (t.attempt.getD 0 + 1),
                   maxAttempts := some (t.maxAttempts.getD (env.config.defaultMaxAttempts.getD 1)),
                   runDir := some (env.nowCompact ++ "-" ++
                     slugify (jsOrStr t.id (dropExt fileName ".json"))) }] } :=
  processOneTask_retry_spec env fileName rest t agent wtOpt hfiles hagents hclaim hcontent
    hprompt hpick hsnap hwt hout hstatus hlt hstderr

/-- C1 witness: a first failure under maxAttempts = 2 requeues the task with
`retry-` name, attempt 1, `lastTriedAt` set and `lastError` recorded. -/
theorem failedRun_requeues_with_retry_witness :
    processOneTask {
      inboxNames := ["t.json"],
      agents := [{ name := "a", command := "c", useWorktree := false }],
      config := {},
      claimOk := true,
      content := .wellFormed { id := some "tid", prompt := some (.str "do it"),
                               maxAttempts := some 2 },
      snapshotWrite := .ok (),
      worktreeRes := .ok ⟨"b", "p"⟩,
      runResult := { status := some 1, stderr := "boom" },
      outputWrite := .ok (),
      nowMs := 5, nowText := "T", nowCompact := "TS" } = .ok {
      returned := true,
      moves := [⟨QDir.processing, "t.json",
                 FileBody.task { id := some "tid", prompt := some (.str "do it"),
                                 maxAttempts := some 2 }⟩,
                ⟨QDir.inbox, "retry-5-t.json",
                 FileBody.task { id := some "tid", prompt := some (.str "do it"),
                                 maxAttempts := some 2, attempt := some 1,
                                 lastError := some "boom", lastTriedAt := some "T" }⟩],
      spawns := [{ command := "c", args := ["do it"], input := none }],
      events := [{ status := "retrying", taskId := some "tid", attempt := some 1,
                   maxAttempts := some 2, runDir := some "TS-tid" }] } :=
  failedRun_requeues_with_retry _ "t.json" []
    { id := some "tid", prompt := some (.str "do it"), maxAttempts := some 2 }
    { name := "a", command := "c", useWorktree := false } none
    (by decide) (by decide) (by decide) (by decide) (by decide) (by decide)
    (by decide) (by decide) (by decide) (by decide) (by decide) (by decide)

/-- A 5,001-character standard-error capture whose first 5,000 characters
differ from its last 5,000. -/
def longStderr : String := String.mk (List.replicate 5000 'a' ++ ['b'])

/-- A failing run (exit 1, one attempt left) that captures `longStderr`. -/
def retryCexEnv : ProcEnv where
  inboxNames := ["t.json"]
  agents := [{ name := "a", command := "c", useWorktree := false }]
  config := {}
  claimOk := true
  content := .wellFormed { id := some "tid", prompt := some (.str "p"), maxAttempts := some 2 }
  snapshotWrite := .ok ()
  worktreeRes := .ok ⟨"b", "p"⟩
  runResult := { status := some 1, stderr := longStderr }
  outputWrite := .ok ()
  nowMs := 5
  nowText := "T"
  nowCompact := "TS"

/-- The `lastError` value written into the requeued task file, when the call
requeued one. -/
def recordedLastError (r : Fallible ProcResult) : Option String :=
  match r with
  | .ok res =>
    match res.moves with
    | [_, m] =>
      match m.content with
      | .task t => t.lastError
      | _ => none
    | _ => none
  | .exn _ => none

/-- C1 counterexample: on a 5,001-character standard error the requeued task's
`lastError` is the first 5,000 characters (`slice(0, 5000)`), which differs
from the last 5,000 characters the claim specifies. -/
theorem retry_lastError_not_last5000 :
    recordedLastError (processOneTask retryCexEnv) = some (jsSlice longStderr 5000) ∧
    recordedLastError (processOneTask retryCexEnv) ≠ some (lastChars longStderr 5000) := by
  have h1 := processOneTask_retry_spec retryCexEnv "t.json" []
    { id := some "tid", prompt := some (.str "p"), maxAttempts := some 2 }
    { name := "a", command := "c", useWorktree := false } none
    (by decide) (by decide) (by decide) (by decide) (by decide) (by decide)
    (by decide) (by decide) (by decide) (by decide) (by decide)
    (by intro h; exact absurd (congrArg String.data h) (by decide))
  have h2 : recordedLastError (processOneTask retryCexEnv) =
      some (jsSlice longStderr 5000) := by
    rw [h1]; rfl
  have e1 : jsSlice longStderr 5000 = String.mk (List.replicate 5000 'a') :=
    congrArg String.mk (List.take_left' (List.length_replicate 5000 'a'))
  have ht : longStderr.toList = List.replicate 5000 'a' ++ ['b'] := rfl
  have e2 : lastChars longStderr 5000 = String.mk (List.replicate 4999 'a' ++ ['b']) := by
    have hlen : longStderr.toList.length - 5000 = 1 := by
      rw [ht, List.length_append, List.length_replicate]
      decide
    have hlist : longStderr.toList.drop (longStderr.toList.length - 5000) =
        List.replicate 4999 'a' ++ ['b'] := by
      rw [hlen, ht]
      show (List.replicate (4999 + 1) 'a' ++ ['b']).drop 1 = List.replicate 4999 'a' ++ ['b']
      rw [List.replicate_succ, List.cons_append]
      rfl
    exact congrArg String.mk hlist
  have e3 : (List.replicate 5000 'a' : List Char) ≠ List.replicate 4999 'a' ++ ['b'] := by
    intro h
    have hb : ('b' : Char) ∈ List.replicate 5000 'a' := by
      rw [h]
      exact List.mem_append_right _ (List.mem_singleton.mpr rfl)
    exact absurd (List.mem_replicate.mp hb).2 (by decide)
  have hneq : jsSlice longStderr 5000 ≠ lastChars longStderr 5000 := by
    rw [e1, e2]
    intro h
    exact e3 (congrArg String.data h)
  exact ⟨h2, by rw [h2]; exact fun hc => hneq (Option.some.inj hc)⟩

/-- The result of `find?` only depends on the predicate's values on the list. -/
theorem find?_congrP {α : Type} (l : List α) {p q : α → Bool}
    (h : ∀ a ∈ l, p a = q a) : l.find? p = l.find? q := by
  induction l with
  | nil => rfl
  | cons a l ih =>
    rw [List.find?_cons, List.find?_cons, h a (List.mem_cons_self a l),
        ih (fun b hb => h b (List.mem_cons_of_mem a hb))]

/-- A `firstSome` chain ending in the head of a non-empty list finds an
agent. -/
theorem firstSome_chain_ne_none (x y z : Option Agent) (a : Agent) (as : List Agent) :
    firstSome x (firstSome y (firstSome z ((a :: as).head?))) ≠ none := by
  cases x <;> cases y <;> cases z <;> simp [firstSome]

/-- On a registry whose names are non-empty, rule 1 of `pickAgent` is the
claim's rule 1: the first agent whose name equals `task.agent`. -/
theorem byAgentStage_eq_claim (task : Task) (agents : List Agent)
    (hname : ∀ a ∈ agents, a.name ≠ "") :
    byAgentStage task agents = agents.find? (fun a => task.agent == some a.name) := by
  cases hta : task.agent with
  | none =>
    simp only [byAgentStage, hta]
    symm
    rw [List.find?_eq_none]
    intro a _
    simp
  | some s =>
    simp only [byAgentStage, hta]
    by_cases hs : s = ""
    · subst hs
      rw [if_pos (show (("" : String) == "") = true from rfl)]
      symm
      rw [List.find?_eq_none]
      intro a ha hcontra
      have hEq : ("" : String) = a.name := by simpa using hcontra
      exact hname a ha hEq.symm
    · rw [if_neg (by simpa using hs)]
      apply find?_congrP
      intro a _
      show (a.name == s) = (some s == some a.name)
      have hred : (some s == some a.name) = (s == a.name) := rfl
      rw [hred]
      by_cases h : a.name = s
      · rw [h]
      · rw [beq_eq_false_iff_ne.mpr h, beq_eq_false_iff_ne.mpr (Ne.symm h)]

/-- On a registry whose commands are non-empty, rule 2 of `pickAgent` is the
claim's rule 2: the first agent whose command equals `task.tool`. -/
theorem byToolStage_eq_claim (task : Task) (agents : List Agent)
    (hcmd : ∀ a ∈ agents, a.command ≠ "") :
    byToolStage task agents = agents.find? (fun a => task.tool == some a.command) := by
  cases hta : task.tool with
  | none =>
    simp only [byToolStage, hta]
    symm
    rw [List.find?_eq_none]
    intro a _
    simp
  | some s =>
    simp only [byToolStage, hta]
    by_cases hs : s = ""
    · subst hs
      rw [if_pos (show (("" : String) == "") = true from rfl)]
      symm
      rw [List.find?_eq_none]
      intro a ha hcontra
      have hEq : ("" : String) = a.command := by simpa using hcontra
      exact hcmd a ha hEq.symm
    · rw [if_neg (by simpa using hs)]
      apply find?_congrP
      intro a _
      show (a.command == s) = (some s == some a.command)
      have hred : (some s == some a.command) = (s == a.command) := rfl
      rw [hred]
      by_cases h : a.command = s
      · rw [h]
      · rw [beq_eq_false_iff_ne.mpr h, beq_eq_false_iff_ne.mpr (Ne.symm h)]

/-- Rule 3 of `pickAgent` equals the claim's rule 3 (a missing routing order
behaves as the empty order). -/
theorem routingStage_eq_claim (config : Config) (agents : List Agent) :
    routingStage config agents = firstFound (config.routingOrder.getD []) agents := by
  unfold routingStage
  cases config.routingOrder <;> rfl

/-- C2: `pickAgent` returns null exactly when the agents list is empty; on a
non-empty list it returns the unique agent given by the claim's four-rule
priority (name match, then command match, then routing order, then first
agent), provided registry names and commands are non-empty — which `loadAgents`
guarantees by skipping entries lacking `name` or `command`. -/
theorem pickAgent_routing_priority
    (task : Task) (agents : List Agent) (config : Config)
    (hname : ∀ a ∈ agents, a.name ≠ "")
    (hcmd : ∀ a ∈ agents, a.command ≠ "") :
    (pickAgent task agents config = none ↔ agents = []) ∧
    pickAgent task agents config = pickAgentClaim task agents config := by
  constructor
  · cases agents with
    | nil => simp [pickAgent]
    | cons a as =>
      unfold pickAgent
      rw [if_neg (by simp)]
      constructor
      · intro h
        exact absurd h (firstSome_chain_ne_none _ _ _ a as)
      · intro h
        exact absurd h (List.cons_ne_nil a as)
  · unfold pickAgent pickAgentClaim
    rw [byAgentStage_eq_claim task agents hname, byToolStage_eq_claim task agents hcmd,
        routingStage_eq_claim config agents]

/-- C2 witness: a task naming no usable agent falls through name, command and
routing-order rules to the first registry agent, and the router agrees with
the claim's priority; on the empty registry it returns none. -/
theorem pickAgent_routing_priority_witness :
    (pickAgent { agent := some "x", tool := some "y" }
        [{ name := "a", command := "ca" }, { name := "b", command := "cb" }]
        { routingOrder := some ["b"] } = none ↔
      ([{ name := "a", command := "ca" }, { name := "b", command := "cb" }] :
        List Agent) = []) ∧
    pickAgent { agent := some "x", tool := some "y" }
        [{ name := "a", command := "ca" }, { name := "b", command := "cb" }]
        { routingOrder := some ["b"] } =
      pickAgentClaim { agent := some "x", tool := some "y" }
        [{ name := "a", command := "ca" }, { name := "b", command := "cb" }]
        { routingOrder := some ["b"] } :=
  pickAgent_routing_priority _ _ _
    (by intro a ha; fin_cases ha <;> decide)
    (by intro a ha; fin_cases ha <;> decide)

/-- Association-list lookup by key (proof-side view of the `byName` map). -/
def lookupV : List (String × Agent) → String → Option Agent
  | [], _ => none
  | (k, v) :: rest, n => if k = n then some v else lookupV rest n

/-- JS `Map.set` writes exactly the given key and preserves every other one. -/
theorem lookupV_mapSet (m : List (String × Agent)) (k k' : String) (v : Agent) :
    lookupV (mapSet m k v) k' = if k' = k then some v else lookupV m k' := by
  induction m with
  | nil =>
    by_cases h : k' = k
    · simp [mapSet, lookupV, h]
    · simp [mapSet, lookupV, h, Ne.symm h]
  | cons q rest ih =>
    obtain ⟨k₁, v₁⟩ := q
    by_cases h1 : k₁ = k
    · subst h1
      by_cases h2 : k' = k₁
      · simp [mapSet, lookupV, h2]
      · simp [mapSet, lookupV, h2, Ne.symm h2]
    · by_cases h2 : k₁ = k'
      · subst h2
        simp [mapSet, lookupV, h1]
      · simp [mapSet, lookupV, h1, h2, ih]

/-- The last definition for name `n` in the processed file stream that
survives `loadAgents`' filters — the claim's "later definition", stated from
the spec's merge wording. Later files are consulted first. -/
def lastEligibleNamed (cmdExists : String → Bool) (n : String) :
    List (Except String RawAgent) → Option RawAgent
  | [] => none
  | f :: fs =>
    match lastEligibleNamed cmdExists n fs with
    | some a => some a
    | none =>
      match eligibleRaw cmdExists f with
      | some a => if a.name = n then some a else none
      | none => none

/-- Folding the registry loop over a file stream: the entry stored for `n` is
the last eligible definition named `n`, falling back to the accumulator. -/
theorem lookupV_foldl_agentStep (cmdExists : String → Bool)
    (fs : List (Except String RawAgent)) (m : List (String × Agent)) (n : String) :
    lookupV (fs.foldl (agentStep cmdExists) m) n =
      (match lastEligibleNamed cmdExists n fs with
       | some a => some (normAgent a)
       | none => lookupV m n) := by
  induction fs generalizing m with
  | nil => rfl
  | cons f fs ih =>
    rw [List.foldl_cons, ih]
    cases hl : lastEligibleNamed cmdExists n fs with
    | some a => simp [lastEligibleNamed, hl]
    | none =>
      simp only [lastEligibleNamed, hl]
      cases he : eligibleRaw cmdExists f with
      | none => simp [agentStep, he]
      | some a =>
        simp only [agentStep, he]
        rw [lookupV_mapSet]
        by_cases hn : a.name = n
        · simp [hn]
        · simp [hn, Ne.symm hn]

/-- Every stored value's name equals its key. -/
def goodKeys (m : List (String × Agent)) : Prop := ∀ p ∈ m, (p.2).name = p.1

/-- Setting a key whose value carries that name preserves the invariant. -/
theorem goodKeys_mapSet (v : Agent) (k : String) :
    ∀ m, goodKeys m → v.name = k → goodKeys (mapSet m k v) := by
  intro m
  induction m with
  | nil =>
    intro _ hv p hp
    simp [mapSet] at hp
    subst hp
    exact hv
  | cons q rest ih =>
    obtain ⟨k₁, v₁⟩ := q
    intro hm hv p hp
    by_cases h : k₁ = k
    · subst h
      simp only [mapSet, if_pos rfl] at hp
      rcases List.mem_cons.mp hp with h' | h'
      · subst h'; exact hv
      · exact hm p (List.mem_cons_of_mem _ h')
    · simp only [mapSet, if_neg h] at hp
      rcases List.mem_cons.mp hp with h' | h'
      · subst h'; exact hm (k₁, v₁) (List.mem_cons_self _ _)
      · exact ih (fun q hq => hm q (List.mem_cons_of_mem _ hq)) hv p h'

/-- The registry loop preserves the key-name invariant. -/
theorem goodKeys_foldl (cmdExists : String → Bool) (fs : List (Except String RawAgent)) :
    ∀ m, goodKeys m → goodKeys (fs.foldl (agentStep cmdExists) m) := by
  induction fs with
  | nil => intro m hm; exact hm
  | cons f fs ih =>
    intro m hm
    rw [List.foldl_cons]
    apply ih
    unfold agentStep
    cases he : eligibleRaw cmdExists f with
    | none => exact hm
    | some a => exact goodKeys_mapSet (normAgent a) a.name m hm rfl

/-- Under the key-name invariant, searching the values by name is the map
lookup by key. -/
theorem values_find?_eq_lookupV :
    ∀ m : List (String × Agent), goodKeys m → ∀ n,
      (m.map Prod.snd).find? (fun a => a.name == n) = lookupV m n := by
  intro m
  induction m with
  | nil => intro _ _; rfl
  | cons p rest ih =>
    intro hm n
    obtain ⟨k, v⟩ := p
    have hv : v.name = k := hm (k, v) (List.mem_cons_self _ _)
    simp only [List.map_cons, List.find?_cons, hv]
    by_cases h : k = n
    · simp [lookupV, h]
    · simp only [beq_eq_false_iff_ne.mpr h, lookupV, if_neg h]
      exact ih (fun q hq => hm q (List.mem_cons_of_mem _ hq)) n

/-- C3 (amended): in the merged registry, the entry stored for each `name` is
the normalization of the LAST definition for that name in processing order
that is itself eligible (parseable, not `enabled: false`, has a non-empty
`name` and `command`, and a resolvable command). A later directory's
definition therefore wins exactly when it is eligible; an ineligible later
file is skipped and leaves the earlier entry in place. -/
theorem loadAgents_merge_lastEligibleWins
    (dirs : List (List (Except String RawAgent))) (cmdExists : String → Bool) (n : String) :
    (loadAgents dirs cmdExists).find? (fun a => a.name == n) =
      (lastEligibleNamed cmdExists n dirs.flatten).map normAgent := by
  unfold loadAgents
  rw [values_find?_eq_lookupV _
        (goodKeys_foldl cmdExists dirs.flatten [] (by intro p hp; cases hp)) n,
      lookupV_foldl_agentStep]
  cases lastEligibleNamed cmdExists n dirs.flatten <;> rfl

/-- C3 counterexample: a later (project-local) definition of name `a` with
`enabled: false` does NOT replace the earlier (shared) definition — the merged
registry still holds the earlier entry (command `x`), not the later one
(command `y`), contradicting "the later definition is the one present
regardless of content differences". -/
theorem loadAgents_later_disabled_does_not_override :
    loadAgents [[Except.ok { name := "a", command := "x" }],
                [Except.ok { name := "a", command := "y", enabled := some false }]]
        (fun _ => true) =
      [normAgent { name := "a", command := "x" }] ∧
    normAgent { name := "a", command := "x" } ≠
      normAgent { name := "a", command := "y", enabled := some false } := by
  constructor <;> decide

/-- Insertion keeps exactly the old names plus the new one. -/
theorem mem_insertName (x n : String) (l : List String) :
    x ∈ insertName n l ↔ x = n ∨ x ∈ l := by
  induction l with
  | nil => simp [insertName]
  | cons m ms ih =>
    unfold insertName
    by_cases h : (n ≤ m)
    · simp [h]
    · simp only [h, decide_eq_true_eq, if_false, List.mem_cons, ih]
      tauto

/-- Sorting keeps exactly the names. -/
theorem mem_sortNames (x : String) (l : List String) : x ∈ sortNames l ↔ x ∈ l := by
  induction l with
  | nil => simp [sortNames]
  | cons n ns ih => simp [sortNames, mem_insertName, ih]

/-- A rename never removes anything from the target directory. -/
theorem renameEntry_dst_mono (src dst : List (String × String)) (name newName : String)
    (x : String × String) (hx : x ∈ dst) : x ∈ (renameEntry src dst name newName).2 := by
  unfold renameEntry
  cases hf : src.find? (fun p => p.1 == name) with
  | none => simpa using hx
  | some e => simpa using Or.inl hx

/-- The recovery loop never removes anything from the inbox. -/
theorem foldRename_dst_mono (names : List String) :
    ∀ (st : List (String × String) × List (String × String)) (x : String × String),
      x ∈ st.2 →
      x ∈ (names.foldl (fun st q => renameEntry st.1 st.2 q ("recovered-" ++ q)) st).2 := by
  induction names with
  | nil => intro st x hx; exact hx
  | cons q names ih =>
    intro st x hx
    rw [List.foldl_cons]
    exact ih _ x (renameEntry_dst_mono st.1 st.2 q _ x hx)

/-- With unique filenames, looking a name up in a directory finds exactly its
entry. -/
theorem find?_key_unique (n c : String) :
    ∀ src : List (String × String), (src.map Prod.fst).Nodup → (n, c) ∈ src →
      src.find? (fun p => p.1 == n) = some (n, c) := by
  intro src
  induction src with
  | nil => intro _ h; cases h
  | cons q rest ih =>
    intro hnd hmem
    obtain ⟨k, v⟩ := q
    rw [List.find?_cons]
    by_cases h : k = n
    · subst h
      simp only [beq_self_eq_true]
      rcases List.mem_cons.mp hmem with h' | h'
      · injection h' with h1 h2
        subst h2
        rfl
      · exfalso
        have hk : k ∈ rest.map Prod.fst := List.mem_map_of_mem Prod.fst h'
        simp only [List.map_cons, List.nodup_cons] at hnd
        exact hnd.1 hk
    · simp only [beq_eq_false_iff_ne.mpr h]
      have hnd' : (rest.map Prod.fst).Nodup := by
        simp only [List.map_cons, List.nodup_cons] at hnd
        exact hnd.2
      have hmem' : (n, c) ∈ rest := by
        rcases List.mem_cons.mp hmem with h' | h'
        · exact absurd (congrArg Prod.fst h') (fun hh => h hh.symm)
        · exact h'
      exact ih hnd' hmem'

/-- Running the recovery loop over a name list moves each listed entry into
the target directory under its `recovered-` name, with its content
unchanged. -/
theorem fold_recovers (names : List String) :
    ∀ (src dst : List (String × String)) (n c : String),
      (src.map Prod.fst).Nodup → (n, c) ∈ src → n ∈ names →
      ("recovered-" ++ n, c) ∈
        (names.foldl (fun st q => renameEntry st.1 st.2 q ("recovered-" ++ q)) (src, dst)).2 := by
  induction names with
  | nil => intro _ _ _ _ _ _ h; cases h
  | cons q names ih =>
    intro src dst n c hnd hmem hn
    rw [List.foldl_cons]
    by_cases hq : q = n
    · subst hq
      have hf := find?_key_unique q c src hnd hmem
      have hdst : ("recovered-" ++ q, c) ∈ (renameEntry src dst q ("recovered-" ++ q)).2 := by
        simp [renameEntry, hf]
      exact foldRename_dst_mono names _ _ hdst
    · have hn' : n ∈ names := by
        rcases List.mem_cons.mp hn with h | h
        · exact absurd h.symm hq
        · exact h
      have hkeep : (n, c) ∈ (renameEntry src dst q ("recovered-" ++ q)).1 := by
        unfold renameEntry
        cases hf : src.find? (fun p => p.1 == q) with
        | none => simpa using hmem
        | some e =>
          have hpa : ¬((n, c).1 == q) = true := by
            simp only [beq_iff_eq]
            exact fun hh => hq (Eq.symm hh)
          have hiff : (n, c) ∈ src.eraseP (fun p => p.1 == q) ↔ (n, c) ∈ src :=
            List.mem_eraseP_of_neg hpa
          simpa using hiff.mpr hmem
      have hnd' : ((renameEntry src dst q ("recovered-" ++ q)).1.map Prod.fst).Nodup := by
        unfold renameEntry
        cases hf : src.find? (fun p => p.1 == q) with
        | none => simpa using hnd
        | some e =>
          simpa using ((List.eraseP_sublist src).map Prod.fst).nodup hnd
      exact ih _ _ n c hnd' hkeep hn'

/-- C6: on startup recovery, every `.json` file found in the processing
directory is renamed into the inbox with a `recovered-` prefix prepended to
its filename, and its content — any pre-crash `attempt` value included — is
carried over byte-for-byte unchanged. -/
theorem recoverProcessing_renames_json
    (processing inbox : List (String × String)) (n c : String)
    (hnd : (processing.map Prod.fst).Nodup)
    (hmem : (n, c) ∈ processing)
    (hjson : strEndsWith n ".json" = true) :
    ("recovered-" ++ n, c) ∈ (recoverProcessing processing inbox).2 := by
  unfold recoverProcessing
  apply fold_recovers _ _ _ _ _ hnd hmem
  unfold listFiles
  rw [mem_sortNames]
  exact List.mem_filter.mpr ⟨List.mem_map_of_mem Prod.fst hmem, hjson⟩

/-- C6 witness: a stale processing entry whose JSON still records
`"attempt": 3` reappears in the inbox as `recovered-a.json` with the same
bytes. -/
theorem recoverProcessing_renames_json_witness :
    (("recovered-a.json", "\x7b\x22id\x22:\x22t\x22,\x22attempt\x22:3\x7d") ∈
      (recoverProcessing [("a.json", "\x7b\x22id\x22:\x22t\x22,\x22attempt\x22:3\x7d")]
        [("waiting-1-b.json", "other")]).2) :=
  recoverProcessing_renames_json _ _ "a.json" "\x7b\x22id\x22:\x22t\x22,\x22attempt\x22:3\x7d"
    (by decide) (by decide) (by decide)

/-- Did the call return normally (no exception escaped)? -/
def isOkE {α : Type} : Fallible α → Bool
  | .ok _ => true
  | .exn _ => false

/-- Whatever a condition decides between two normal returns, no exception
escapes. -/
theorem isOkE_iteOk {α : Type} {c : Prop} [Decidable c] (x y : α) :
    isOkE (if c then Fallible.ok x else Fallible.ok y) = true := by
  split <;> rfl

/-- C7 counterexample: an exception thrown while writing the pre-execution
snapshot (run-directory writes, lines 393-396, which sit BEFORE the try block)
is not caught: it propagates out of `processOneTask`, contradicting the
claim that snapshot-write exceptions are caught and recorded as
`runtime_exception`. -/
theorem snapshotWrite_exception_propagates :
    processOneTask {
      inboxNames := ["t.json"],
      agents := [{ name := "a", command := "c", useWorktree := false }],
      config := {},
      claimOk := true,
      content := .wellFormed { id := some "tid", prompt := some (.str "p") },
      snapshotWrite := .exn "EACCES: permission denied, open runs/task.json",
      worktreeRes := .ok ⟨"b", "p"⟩,
      runResult := { status := some 0 },
      outputWrite := .ok (),
      nowMs := 3, nowText := "T", nowCompact := "TS" } =
    .exn "EACCES: permission denied, open runs/task.json" := by decide

/-- C7 (amended): once the pre-try snapshot writes succeed, no exception
escapes `processOneTask`; an exception raised inside the guarded block —
worktree creation, or the output/summary writes around the agent run — is
caught and turned into a move to failed with reason `runtime_exception` and
the error text recorded. Exceptions in the snapshot writes themselves (before
the try) are NOT covered and propagate. -/
theorem processOneTask_guarded_block_catches (env : ProcEnv)
    (hsnap : env.snapshotWrite = Fallible.ok ()) :
    isOkE (processOneTask env) = true ∧
    (∀ fileName rest t agent e,
      listFiles env.inboxNames ".json" = fileName :: rest →
      env.agents.isEmpty = false →
      env.claimOk = true →
      env.content = JsonContent.wellFormed t →
      jsTrim (promptStr t) ≠ "" →
      pickAgent t env.agents env.config = some agent →
      agent.useWorktree = true →
      env.worktreeRes = Fallible.exn e →
      processOneTask env = .ok {
        returned := true,
        moves := [⟨QDir.processing, fileName, FileBody.task t⟩,
                  ⟨QDir.failed, moveName (toString env.nowMs) fileName, FileBody.task t⟩],
        spawns := [],
        events := [{ status := "failed", reason := some "runtime_exception",
                     taskId := some (jsOrStr t.id (dropExt fileName ".json")),
                     error := some e,
                     runDir := some (env.nowCompact ++ "-" ++
                       slugify (jsOrStr t.id (dropExt fileName ".json"))) }] }) ∧
    (∀ fileName rest t agent wtOpt e,
      listFiles env.inboxNames ".json" = fileName :: rest →
      env.agents.isEmpty = false →
      env.claimOk = true →
      env.content = JsonContent.wellFormed t →
      jsTrim (promptStr t) ≠ "" →
      pickAgent t env.agents env.config = some agent →
      (if agent.useWorktree then env.worktreeRes.map some else Fallible.ok none) =
        Fallible.ok wtOpt →
      env.outputWrite = Fallible.exn e →
      processOneTask env = .ok {
        returned := true,
        moves := [⟨QDir.processing, fileName, FileBody.task t⟩,
                  ⟨QDir.failed, moveName (toString env.nowMs) fileName, FileBody.task t⟩],
        spawns := [runAgent agent t (promptStr t)],
        events := [{ status := "failed", reason := some "runtime_exception",
                     taskId := some (jsOrStr t.id (dropExt fileName ".json")),
                     error := some e,
                     runDir := some (env.nowCompact ++ "-" ++
                       slugify (jsOrStr t.id (dropExt fileName ".json"))) }] }) := by
  refine ⟨?_, ?_, ?_⟩
  · unfold processOneTask
    repeat' split
    all_goals try rfl
    all_goals try exact isOkE_iteOk _ _
    all_goals try simp_all [isOkE]
    all_goals split_ifs <;> rfl
  · intro fileName rest t agent e hls hag hcl hco hpr hpk hwt hwe
    unfold processOneTask
    rw [hls, hco]
    simp [hag, hcl, contentBody, hpr, hpk, hsnap, hwt, hwe, Fallible.map]
  · intro fileName rest t agent wtOpt e hls hag hcl hco hpr hpk hwt hout
    unfold processOneTask
    rw [hls, hco]
    simp [hag, hcl, contentBody, hpr, hpk, hsnap, hwt, hout]

/-- C7 witness: with the snapshot writes succeeding and worktree creation
(`git worktree add`) throwing, the call returns normally and the task is
failed with reason `runtime_exception` carrying the git diagnostic. -/
theorem processOneTask_guarded_block_catches_witness :
    isOkE (processOneTask {
      inboxNames := ["t.json"],
      agents := [{ name := "a", command := "c" }],
      config := {},
      claimOk := true,
      content := .wellFormed { id := some "tid", prompt := some (.str "p") },
      snapshotWrite := .ok (),
      worktreeRes := .exn "git worktree add failed: fatal: not a git repository",
      runResult := { status := some 0 },
      outputWrite := .ok (),
      nowMs := 3, nowText := "T", nowCompact := "TS" }) = true ∧
    processOneTask {
      inboxNames := ["t.json"],
      agents := [{ name := "a", command := "c" }],
      config := {},
      claimOk := true,
      content := .wellFormed { id := some "tid", prompt := some (.str "p") },
      snapshotWrite := .ok (),
      worktreeRes := .exn "git worktree add failed: fatal: not a git repository",
      runResult := { status := some 0 },
      outputWrite := .ok (),
      nowMs := 3, nowText := "T", nowCompact := "TS" } = .ok {
      returned := true,
      moves := [⟨QDir.processing, "t.json",
                 FileBody.task { id := some "tid", prompt := some (.str "p") }⟩,
                ⟨QDir.failed, "3-t.json",
                 FileBody.task { id := some "tid", prompt := some (.str "p") }⟩],
      spawns := [],
      events := [{ status := "failed", reason := some "runtime_exception",
                   taskId := some "tid",
                   error := some "git worktree add failed: fatal: not a git repository",
                   runDir := some "TS-tid" }] } :=
  ⟨(processOneTask_guarded_block_catches _ (by decide)).1,
   (processOneTask_guarded_block_catches _ (by decide)).2.1 "t.json" []
     { id := some "tid", prompt := some (.str "p") }
     { name := "a", command := "c" }
     "git worktree add failed: fatal: not a git repository"
     (by decide) (by decide) (by decide) (by decide) (by decide) (by decide)
     (by decide) (by decide)⟩

/-- C9: with the claim primitive an atomic rename, two concurrent claim
attempts on the same inbox file interleave as one attempt after the other, so
exactly the first succeeds and the second observes a failed rename; and a
`processOneTask` call whose claim rename fails skips the file — it returns
true with no moves, no subprocess spawned and no events, so the task is
executed at most once per claim. -/
theorem concurrentClaim_exactlyOnce
    (s : StoreState) (hs : s.inboxHas = true)
    (env : ProcEnv) (fileName : String) (rest : List String)
    (hfiles : listFiles env.inboxNames ".json" = fileName :: rest)
    (hagents : env.agents.isEmpty = false)
    (hlost : env.claimOk = false) :
    ((claimAttempt s).1 = true ∧ (claimAttempt (claimAttempt s).2).1 = false) ∧
    processOneTask env = .ok { returned := true, moves := [], spawns := [], events := [] } := by
  refine ⟨⟨?_, ?_⟩, ?_⟩
  · simp [claimAttempt, hs]
  · simp [claimAttempt, hs]
  · unfold processOneTask
    rw [hfiles]
    simp [hagents, hlost]

/-- C9 witness: a present inbox file, one winning and one losing claimant; the
loser's iteration performs no effects. -/
theorem concurrentClaim_exactlyOnce_witness :
    ((claimAttempt ⟨true⟩).1 = true ∧ (claimAttempt (claimAttempt ⟨true⟩).2).1 = false) ∧
    processOneTask {
      inboxNames := ["t.json"],
      agents := [{ name := "a", command := "c" }],
      config := {},
      claimOk := false,
      content := .wellFormed { id := some "tid", prompt := some (.str "p") },
      snapshotWrite := .ok (),
      worktreeRes := .ok ⟨"b", "p"⟩,
      runResult := { status := some 0 },
      outputWrite := .ok (),
      nowMs := 3, nowText := "T", nowCompact := "TS" } =
      .ok { returned := true, moves := [], spawns := [], events := [] } :=
  concurrentClaim_exactlyOnce ⟨true⟩ (by decide) _ "t.json" []
    (by decide) (by decide) (by decide)

end Autodelegate
